import Mathlib

/-!
Verification of the congestion-control core in `aiortc/rate.py`:
the inter-arrival grouping stage (`InterArrival`), the Kalman-filter
overuse estimator (`OveruseEstimator`), the adaptive-threshold overuse
detector (`OveruseDetector`) and the sliding-window `RateCounter`.

Integer state is embedded as `Int`, the Python float state of the
detector as `Rat` (all of its operations are rational) and the float
state of the estimator as `Real` (its update involves `sqrt` and a real
power, and the claims about it speak of exact real arithmetic).
Python code that would raise on a `None` read is embedded as a function
into `Option`, with `none` standing for the crash.
-/

/-- The Python builtin `round`, on exact rationals: round half to even. -/
def pyRound (q : ℚ) : ℤ :=
  let n := ⌊q⌋
  if q - n < 1/2 then n
  else if 1/2 < q - n then n + 1
  else if n % 2 = 0 then n else n + 1

/-- On an integer, the Python round is the identity. -/
theorem pyRound_intCast (m : ℤ) : pyRound (m : ℚ) = m := by
  simp [pyRound]

/-- Modelled from the spec: `uint32_add` from `aiortc.utils` (not part of the
source corpus): 32-bit wrapping addition, `(a + b) mod 2^32`. -/
def uint32_add (a b : ℤ) : ℤ := (a + b) % 4294967296

/-- Modelled from the spec: `uint32_gt` from `aiortc.utils` (not part of the
source corpus); the spec defines `modular_gt(a,b) := (a - b) mod 2^32 < 2^31`. -/
def uint32_gt (a b : ℤ) : Bool := decide (uint32_add a (-b) < 2147483648)

def BURST_DELTA_THRESHOLD_MS : ℤ := 5
def MAX_ADAPT_OFFSET_MS : ℚ := 15
def MIN_NUM_DELTAS : ℤ := 60
def DELTA_COUNTER_MAX : ℤ := 1000
def MIN_FRAME_PERIOD_HISTORY_LENGTH : ℕ := 60

inductive BandwidthUsage where
  | NORMAL
  | UNDERUSING
  | OVERUSING
deriving DecidableEq, Repr

/-- A group of packets; `rate.py` always constructs it with a timestamp,
so `first_timestamp` and `last_timestamp` are plain integers, while
`arrival_time` starts out as Python `None`. -/
structure TimestampGroup where
  arrival_time : Option ℤ
  first_timestamp : ℤ
  last_timestamp : ℤ
  size : ℤ
deriving DecidableEq, Repr

def TimestampGroup.create (timestamp : ℤ) : TimestampGroup :=
  { arrival_time := none
    first_timestamp := timestamp
    last_timestamp := timestamp
    size := 0 }

structure InterArrivalDelta where
  timestamp : ℤ
  arrival_time : ℤ
  size : ℤ
deriving DecidableEq, Repr

/-- State of `InterArrival.__init__`. -/
structure InterArrivalState where
  group_length : ℤ
  timestamp_to_ms : ℚ
  current_group : Option TimestampGroup
  previous_group : Option TimestampGroup
deriving DecidableEq, Repr

def init_inter_arrival (group_length : ℤ) (timestamp_to_ms : ℚ) : InterArrivalState :=
  { group_length := group_length
    timestamp_to_ms := timestamp_to_ms
    current_group := none
    previous_group := none }

/-- `InterArrival.packet_out_of_order`. -/
def packet_out_of_order (cg : TimestampGroup) (timestamp : ℤ) : Bool :=
  decide (2147483648 ≤ uint32_add timestamp (-cg.first_timestamp))

/-- `InterArrival.belongs_to_burst`; reading an unset `arrival_time` would
raise in Python, embedded as `none`. -/
def belongs_to_burst (timestamp_to_ms : ℚ) (cg : TimestampGroup)
    (timestamp arrival_time : ℤ) : Option Bool :=
  cg.arrival_time.map (fun current_arrival =>
    let timestamp_delta := uint32_add timestamp (-cg.last_timestamp)
    let timestamp_delta_ms := pyRound (timestamp_to_ms * (timestamp_delta : ℚ))
    let arrival_time_delta := arrival_time - current_arrival
    decide (timestamp_delta_ms = 0) ||
      (decide (arrival_time_delta - timestamp_delta_ms < 0) &&
       decide (arrival_time_delta ≤ BURST_DELTA_THRESHOLD_MS)))

/-- `InterArrival.new_timestamp_group`. -/
def new_timestamp_group (timestamp_to_ms : ℚ) (group_length : ℤ)
    (cg : TimestampGroup) (timestamp arrival_time : ℤ) : Option Bool :=
  (belongs_to_burst timestamp_to_ms cg timestamp arrival_time).map (fun b =>
    if b then false
    else decide (group_length < uint32_add timestamp (-cg.first_timestamp)))

/-- The unconditional accounting at the end of `compute_deltas`:
`current_group.size += packet_size; current_group.arrival_time = arrival_time`. -/
def account (s : InterArrivalState) (arrival_time packet_size : ℤ) : InterArrivalState :=
  { s with current_group := s.current_group.map (fun g =>
      { g with size := g.size + packet_size, arrival_time := some arrival_time }) }

/-- `InterArrival.compute_deltas`; result `none` stands for a Python crash on
an unset optional field. -/
def compute_deltas (s : InterArrivalState) (timestamp arrival_time packet_size : ℤ) :
    Option (InterArrivalState × Option InterArrivalDelta) :=
  match s.current_group with
  | none =>
      some (account { s with current_group := some (TimestampGroup.create timestamp) }
        arrival_time packet_size, none)
  | some cg =>
      if packet_out_of_order cg timestamp then some (s, none)
      else
        match new_timestamp_group s.timestamp_to_ms s.group_length cg timestamp arrival_time with
        | none => none
        | some true =>
            let emitted : Option (Option InterArrivalDelta) :=
              match s.previous_group with
              | none => some none
              | some pg =>
                  match cg.arrival_time, pg.arrival_time with
                  | some ca, some pa =>
                      some (some
                        { timestamp := uint32_add cg.last_timestamp (-pg.last_timestamp)
                          arrival_time := ca - pa
                          size := cg.size - pg.size })
                  | _, _ => none
            emitted.map (fun d =>
              (account { s with previous_group := some cg
                                current_group := some (TimestampGroup.create timestamp) }
                 arrival_time packet_size, d))
        | some false =>
            if uint32_gt timestamp cg.last_timestamp then
              some (account { s with
                  current_group := some { cg with last_timestamp := timestamp } }
                arrival_time packet_size, none)
            else
              some (account s arrival_time packet_size, none)

structure Packet where
  timestamp : ℤ
  arrival_time : ℤ
  size : ℤ
deriving DecidableEq, Repr

/-- Run `compute_deltas` over a packet list, collecting the emitted deltas. -/
def run_deltas : InterArrivalState → List Packet →
    Option (InterArrivalState × List InterArrivalDelta)
  | s, [] => some (s, [])
  | s, p :: ps =>
      match compute_deltas s p.timestamp p.arrival_time p.size with
      | none => none
      | some (s', d) =>
          match run_deltas s' ps with
          | none => none
          | some (s'', ds) => some (s'', d.elim ds (· :: ds))

/-- Number of deltas emitted over a packet list, starting from a fresh
`InterArrival` (in millisecond units: `group_length = 5`,
`timestamp_to_ms = 1`). -/
def emitted_count (ps : List Packet) : Option ℕ :=
  (run_deltas (init_inter_arrival 5 1) ps).map (fun r => r.2.length)

/-- State of `OveruseDetector.__init__`; all of its float arithmetic is
rational, so it is embedded over `Rat`. -/
structure DetectorState where
  hypothesis : BandwidthUsage
  last_update_ms : Option ℚ
  k_up : ℚ
  k_down : ℚ
  overuse_counter : ℤ
  overuse_time : Option ℚ
  overuse_time_threshold : ℚ
  previous_offset : ℚ
  threshold : ℚ
deriving DecidableEq, Repr

def init_detector : DetectorState :=
  { hypothesis := .NORMAL
    last_update_ms := none
    k_up := 0.0087
    k_down := 0.039
    overuse_counter := 0
    overuse_time := none
    overuse_time_threshold := 10
    previous_offset := 0
    threshold := 12.5 }

/-- `OveruseDetector.update_threshold`; in the source, an unset
`last_update_ms` is first seeded with `now_ms`, which the `getD` mirrors. -/
def update_threshold (s : DetectorState) (modified_offset now_ms : ℚ) : DetectorState :=
  let last_update_ms := s.last_update_ms.getD now_ms
  if |modified_offset| > s.threshold + MAX_ADAPT_OFFSET_MS then
    { s with last_update_ms := some now_ms }
  else
    let k := if |modified_offset| < s.threshold then s.k_down else s.k_up
    let time_delta_ms := min (now_ms - last_update_ms) 100
    let threshold := s.threshold + k * (|modified_offset| - s.threshold) * time_delta_ms
    let threshold := max 6 (min threshold 600)
    { s with threshold := threshold, last_update_ms := some now_ms }

/-- `OveruseDetector.detect`, returning the new state and the returned
hypothesis. -/
def detect (s : DetectorState) (offset timestamp_delta_ms : ℚ) (num_of_deltas : ℤ)
    (now_ms : ℚ) : DetectorState × BandwidthUsage :=
  if num_of_deltas < 2 then (s, .NORMAL)
  else
    let T := ((min num_of_deltas MIN_NUM_DELTAS : ℤ) : ℚ) * offset
    let s1 :=
      if T > s.threshold then
        let overuse_time := match s.overuse_time with
          | none => timestamp_delta_ms / 2
          | some t => t + timestamp_delta_ms
        let overuse_counter := s.overuse_counter + 1
        if overuse_time > s.overuse_time_threshold ∧ 1 < overuse_counter ∧
            s.previous_offset ≤ offset then
          { s with overuse_counter := 0, overuse_time := some 0,
                   hypothesis := .OVERUSING }
        else
          { s with overuse_counter := overuse_counter,
                   overuse_time := some overuse_time }
      else if T < -s.threshold then
        { s with overuse_counter := 0, overuse_time := none,
                 hypothesis := .UNDERUSING }
      else
        { s with overuse_counter := 0, overuse_time := none,
                 hypothesis := .NORMAL }
    let s2 := { s1 with previous_offset := offset }
    let s3 := update_threshold s2 T now_ms
    (s3, s3.hypothesis)

structure DetectArgs where
  offset : ℚ
  timestamp_delta_ms : ℚ
  num_of_deltas : ℤ
  now_ms : ℚ

/-- Run a sequence of `detect` calls from the freshly constructed detector. -/
def run_detect (l : List DetectArgs) : DetectorState :=
  l.foldl (fun s a => (detect s a.offset a.timestamp_delta_ms a.num_of_deltas a.now_ms).1)
    init_detector

structure RateBucket where
  count : ℤ
  value : ℤ
deriving DecidableEq, Repr

/-- State of `RateCounter.__init__`; the bucket ring is embedded as a map
from the (modular) index. -/
structure RateCounterState where
  scale : ℤ
  window_size : ℤ
  buckets : ℤ → RateBucket
  origin_index : ℤ
  origin_ms : Option ℤ
  total : RateBucket

/-- The while loop of `RateCounter._erase_old`. -/
def erase_old_loop (buckets : ℤ → RateBucket) (origin_index origin_ms : ℤ)
    (total : RateBucket) (window_size new_origin : ℤ) :
    (ℤ → RateBucket) × ℤ × ℤ × RateBucket :=
  if origin_ms < new_origin then
    let b := buckets origin_index
    let total' : RateBucket := ⟨total.count - b.count, total.value - b.value⟩
    let buckets' := fun i => if i = origin_index then (⟨0, 0⟩ : RateBucket) else buckets i
    erase_old_loop buckets' ((origin_index + 1) % window_size) (origin_ms + 1) total'
      window_size new_origin
  else (buckets, origin_index, origin_ms, total)
termination_by (new_origin - origin_ms).toNat
decreasing_by omega

/-- `RateCounter._erase_old`; the source only calls it with `origin_ms` set. -/
def erase_old (s : RateCounterState) (now_ms : ℤ) : RateCounterState :=
  match s.origin_ms with
  | none => s
  | some o =>
      let new_origin := now_ms - s.window_size + 1
      let r := erase_old_loop s.buckets s.origin_index o s.total s.window_size new_origin
      { s with buckets := r.1, origin_index := r.2.1, origin_ms := some r.2.2.1,
               total := r.2.2.2 }

/-- `RateCounter.rate`. -/
def rate (s : RateCounterState) (now_ms : ℤ) : Option ℤ :=
  match s.origin_ms with
  | none => none
  | some _ =>
      let s' := erase_old s now_ms
      let active_window_size := now_ms - s'.origin_ms.getD 0 + 1
      if 0 < s'.total.count ∧ 1 < active_window_size then
        some (pyRound (((s'.scale * s'.total.value : ℤ) : ℚ) / (active_window_size : ℚ)))
      else none

/-- The rate the spec describes, written from the words of the claim:
`round(scale * total.value / active_window_ms)` with
`active_window_ms = now_ms - origin_ms + 1`, exactly when the counter has
been started and, after `erase_old`, the total count is positive and the
active window exceeds one millisecond; otherwise none. -/
def rate_spec (s : RateCounterState) (now_ms : ℤ) : Option ℤ :=
  let s' := erase_old s now_ms
  let active_window_ms := now_ms - s'.origin_ms.getD 0 + 1
  if s.origin_ms.isSome ∧ 0 < s'.total.count ∧ 1 < active_window_ms then
    some (pyRound (((s'.scale * s'.total.value : ℤ) : ℚ) / (active_window_ms : ℚ)))
  else none

noncomputable section

/-- State of `OveruseEstimator.__init__`; the claims about it speak of exact
real arithmetic, and its update involves a square root and a real power, so
it is embedded over `Real`. The covariance matrix `E` is kept as its four
entries. -/
structure EstimatorState where
  E00 : ℝ
  E01 : ℝ
  E10 : ℝ
  E11 : ℝ
  num_of_deltas : ℤ
  offset : ℝ
  previous_offset : ℝ
  slope : ℝ
  ts_delta_hist : List ℝ
  avg_noise : ℝ
  var_noise : ℝ
  process_noise0 : ℝ
  process_noise1 : ℝ

def init_estimator : EstimatorState :=
  { E00 := 100
    E01 := 0
    E10 := 0
    E11 := 0.1
    num_of_deltas := 0
    offset := 0
    previous_offset := 0
    slope := 1/64
    ts_delta_hist := []
    avg_noise := 0
    var_noise := 50
    process_noise0 := 1e-13
    process_noise1 := 1e-3 }

/-- `OveruseEstimator.update_min_frame_period`: returns the minimum frame
period together with the updated history. -/
def update_min_frame_period (hist : List ℝ) (ts_delta : ℝ) : ℝ × List ℝ :=
  let hist' := if MIN_FRAME_PERIOD_HISTORY_LENGTH ≤ hist.length then hist.drop 1 else hist
  let min_frame_period := hist'.foldl (fun m old => min old m) ts_delta
  (min_frame_period, hist' ++ [ts_delta])

/-- `OveruseEstimator.update_noise_estimate`: returns the new
`(avg_noise, var_noise)` pair. -/
def update_noise_estimate (num_of_deltas : ℤ) (avg_noise var_noise residual ts_delta : ℝ) :
    ℝ × ℝ :=
  let alpha : ℝ := if 10 * 30 < num_of_deltas then 0.002 else 0.01
  let beta := (1 - alpha) ^ (ts_delta * 30 / 1000)
  let avg_noise' := beta * avg_noise + (1 - beta) * residual
  let var_noise' := beta * var_noise + (1 - beta) * (avg_noise' - residual) ^ 2
  (avg_noise', if var_noise' < 1 then 1 else var_noise')

/-- `OveruseEstimator.update`. -/
def update (s : EstimatorState) (time_delta_ms timestamp_delta_ms size_delta : ℝ)
    (current_hypothesis : BandwidthUsage) (now_ms : ℝ) : EstimatorState :=
  let mfp := update_min_frame_period s.ts_delta_hist timestamp_delta_ms
  let min_frame_period := mfp.1
  let t_ts_delta := time_delta_ms - timestamp_delta_ms
  let fs_delta := size_delta
  let num_of_deltas := min (s.num_of_deltas + 1) DELTA_COUNTER_MAX
  let e00 := s.E00 + s.process_noise0
  let e11 :=
    if (current_hypothesis = .OVERUSING ∧ s.offset < s.previous_offset) ∨
       (current_hypothesis = .UNDERUSING ∧ s.previous_offset < s.offset) then
      s.E11 + s.process_noise1 + 10 * s.process_noise1
    else s.E11 + s.process_noise1
  let h0 := fs_delta
  let h1 := (1 : ℝ)
  let Eh0 := e00 * h0 + s.E01 * h1
  let Eh1 := s.E10 * h0 + e11 * h1
  let residual := t_ts_delta - s.slope * h0 - s.offset
  let noise :=
    if current_hypothesis = .NORMAL then
      let max_residual := 3 * Real.sqrt s.var_noise
      let fed := if |residual| < max_residual then residual
                 else if residual < 0 then -max_residual else max_residual
      update_noise_estimate num_of_deltas s.avg_noise s.var_noise fed min_frame_period
    else (s.avg_noise, s.var_noise)
  let avg_noise := noise.1
  let var_noise := noise.2
  let denom := var_noise + h0 * Eh0 + h1 * Eh1
  let K0 := Eh0 / denom
  let K1 := Eh1 / denom
  let IKh00 := 1 - K0 * h0
  let IKh01 := -(K0 * h1)
  let IKh10 := -(K1 * h0)
  let IKh11 := 1 - K1 * h1
  { s with
    E00 := e00 * IKh00 + s.E10 * IKh01
    E01 := s.E01 * IKh00 + e11 * IKh01
    E10 := e00 * IKh10 + s.E10 * IKh11
    E11 := s.E01 * IKh10 + e11 * IKh11
    num_of_deltas := num_of_deltas
    ts_delta_hist := mfp.2
    avg_noise := avg_noise
    var_noise := var_noise
    previous_offset := s.offset
    slope := s.slope + K0 * residual
    offset := s.offset + K1 * residual }

/-- The Kalman gain denominator computed at line 230 of the source, as a
function of the state at entry to `update` and of the call arguments: it
repeats the computation of `update` up to that line. -/
def update_denom (s : EstimatorState) (time_delta_ms timestamp_delta_ms size_delta : ℝ)
    (current_hypothesis : BandwidthUsage) : ℝ :=
  let mfp := update_min_frame_period s.ts_delta_hist timestamp_delta_ms
  let min_frame_period := mfp.1
  let t_ts_delta := time_delta_ms - timestamp_delta_ms
  let fs_delta := size_delta
  let num_of_deltas := min (s.num_of_deltas + 1) DELTA_COUNTER_MAX
  let e00 := s.E00 + s.process_noise0
  let e11 :=
    if (current_hypothesis = .OVERUSING ∧ s.offset < s.previous_offset) ∨
       (current_hypothesis = .UNDERUSING ∧ s.previous_offset < s.offset) then
      s.E11 + s.process_noise1 + 10 * s.process_noise1
    else s.E11 + s.process_noise1
  let h0 := fs_delta
  let h1 := (1 : ℝ)
  let Eh0 := e00 * h0 + s.E01 * h1
  let Eh1 := s.E10 * h0 + e11 * h1
  let residual := t_ts_delta - s.slope * h0 - s.offset
  let noise :=
    if current_hypothesis = .NORMAL then
      let max_residual := 3 * Real.sqrt s.var_noise
      let fed := if |residual| < max_residual then residual
                 else if residual < 0 then -max_residual else max_residual
      update_noise_estimate num_of_deltas s.avg_noise s.var_noise fed min_frame_period
    else (s.avg_noise, s.var_noise)
  let var_noise := noise.2
  var_noise + h0 * Eh0 + h1 * Eh1

structure UpdateArgs where
  time_delta_ms : ℝ
  timestamp_delta_ms : ℝ
  size_delta : ℝ
  current_hypothesis : BandwidthUsage
  now_ms : ℝ

/-- Run a sequence of `update` calls from the freshly constructed estimator. -/
def run_estimator (l : List UpdateArgs) : EstimatorState :=
  l.foldl (fun s a =>
      update s a.time_delta_ms a.timestamp_delta_ms a.size_delta a.current_hypothesis a.now_ms)
    init_estimator

end

/-! ## Helper lemmas about the inter-arrival stage -/

theorem uint32_add_nonneg (a b : ℤ) : 0 ≤ uint32_add a b :=
  Int.emod_nonneg _ (by norm_num)

theorem uint32_add_lt (a b : ℤ) : uint32_add a b < 4294967296 :=
  Int.emod_lt_of_pos _ (by norm_num)

/-- Evaluation of `belongs_to_burst` when the arrival time of the current
group is set. -/
theorem belongs_to_burst_some (ttm : ℚ) (cg : TimestampGroup) (ca : ℤ)
    (h : cg.arrival_time = some ca) (ts a : ℤ) :
    belongs_to_burst ttm cg ts a =
      some (decide (pyRound (ttm * ((uint32_add ts (-cg.last_timestamp) : ℤ) : ℚ)) = 0) ||
            (decide (a - ca - pyRound (ttm * ((uint32_add ts (-cg.last_timestamp) : ℤ) : ℚ)) < 0) &&
             decide (a - ca ≤ BURST_DELTA_THRESHOLD_MS))) := by
  simp [belongs_to_burst, h]

/-- The structural invariant behind claim C9: whenever a group exists its
arrival time has been set. -/
def IAInv (s : InterArrivalState) : Prop :=
  (∀ g, s.current_group = some g → g.arrival_time.isSome) ∧
  (∀ g, s.previous_group = some g → g.arrival_time.isSome)

/-- Accounting preserves the invariant: it sets the arrival time of the
current group. -/
theorem account_inv (s : InterArrivalState) (a p : ℤ)
    (hprev : ∀ g, s.previous_group = some g → g.arrival_time.isSome) :
    IAInv (account s a p) := by
  refine ⟨?_, ?_⟩
  · intro g hg
    rcases Option.map_eq_some'.mp hg with ⟨g0, _, rfl⟩
    rfl
  · exact hprev

theorem compute_deltas_total (s : InterArrivalState) (h : IAInv s)
    (ts a p : ℤ) :
    ∃ r, compute_deltas s ts a p = some r ∧ IAInv r.1 := by
  obtain ⟨hcur, hprev⟩ := h
  match hc : s.current_group with
  | none =>
      exact ⟨(account { s with current_group := some (TimestampGroup.create ts) } a p, none),
        by simp [compute_deltas, hc], account_inv _ a p hprev⟩
  | some cg =>
      obtain ⟨ca, hca⟩ := Option.isSome_iff_exists.mp (hcur cg hc)
      by_cases hoo : packet_out_of_order cg ts
      · exact ⟨(s, none), by simp [compute_deltas, hc, hoo], hcur, hprev⟩
      · rw [Bool.not_eq_true] at hoo
        obtain ⟨bv, hng⟩ : ∃ bv,
            new_timestamp_group s.timestamp_to_ms s.group_length cg ts a = some bv := by
          simp [new_timestamp_group, belongs_to_burst, hca]
        have hprev' : ∀ g, some cg = some g → g.arrival_time.isSome := by
          intro g hg
          cases Option.some_inj.mp hg
          rw [hca]
          rfl
        cases bv with
        | false =>
            by_cases hgt : uint32_gt ts cg.last_timestamp
            · exact ⟨(account { s with
                  current_group := some { cg with last_timestamp := ts } } a p, none),
                by simp [compute_deltas, hc, hoo, hng, hgt], account_inv _ a p hprev⟩
            · rw [Bool.not_eq_true] at hgt
              exact ⟨(account s a p, none),
                by simp [compute_deltas, hc, hoo, hng, hgt], account_inv _ a p hprev⟩
        | true =>
            match hp : s.previous_group with
            | none =>
                exact ⟨(account
                    { s with
                      previous_group := some cg
                      current_group := some (TimestampGroup.create ts) } a p, none),
                  by simp [compute_deltas, hc, hoo, hng, hp], account_inv _ a p hprev'⟩
            | some pg =>
                obtain ⟨pa, hpa⟩ := Option.isSome_iff_exists.mp (hprev pg hp)
                exact ⟨(account
                    { s with
                      previous_group := some cg
                      current_group := some (TimestampGroup.create ts) } a p,
                    some { timestamp := uint32_add cg.last_timestamp (-pg.last_timestamp)
                           arrival_time := ca - pa
                           size := cg.size - pg.size }),
                  by simp [compute_deltas, hc, hoo, hng, hp, hca, hpa],
                  account_inv _ a p hprev'⟩

theorem run_deltas_total : ∀ (ps : List Packet) (s : InterArrivalState), IAInv s →
    ∃ r, run_deltas s ps = some r ∧ IAInv r.1
  | [], s, h => ⟨(s, []), rfl, h⟩
  | p :: ps, s, h => by
      obtain ⟨⟨s', d⟩, hstep, hinv⟩ := compute_deltas_total s h p.timestamp p.arrival_time p.size
      obtain ⟨⟨s'', ds⟩, hrun, hinv'⟩ := run_deltas_total ps s' hinv
      exact ⟨(s'', d.elim ds (· :: ds)), by simp [run_deltas, hstep, hrun], hinv'⟩


/-! ## Claim theorems for the inter-arrival stage -/

/-- C9: along any sequence of `compute_deltas` calls from a fresh
`InterArrival`, every read of `current_group.arrival_time`,
`current_group.last_timestamp`, `current_group.first_timestamp` and
`previous_group.arrival_time` hits a set value: the run never reaches the
`none` that models a Python read of an unset field, because every call that
creates or keeps a group also assigns its arrival time. -/
theorem compute_deltas_never_reads_unset (group_length : ℤ) (timestamp_to_ms : ℚ)
    (ps : List Packet) :
    (run_deltas (init_inter_arrival group_length timestamp_to_ms) ps).isSome := by
  obtain ⟨r, hr, -⟩ := run_deltas_total ps (init_inter_arrival group_length timestamp_to_ms)
    ⟨fun g hg => by simp [init_inter_arrival] at hg,
     fun g hg => by simp [init_inter_arrival] at hg⟩
  rw [hr]
  rfl

/-- C3: with a current group present, a call whose send timestamp satisfies
`(timestamp - first_timestamp) mod 2^32 >= 2^31` returns no delta and leaves
the whole state unchanged. -/
theorem compute_deltas_out_of_order (s : InterArrivalState) (cg : TimestampGroup)
    (hcg : s.current_group = some cg) (timestamp arrival_time packet_size : ℤ)
    (hooo : 2147483648 ≤ uint32_add timestamp (-cg.first_timestamp)) :
    compute_deltas s timestamp arrival_time packet_size = some (s, none) := by
  have h : packet_out_of_order cg timestamp = true := by
    simp [packet_out_of_order, hooo]
  simp [compute_deltas, hcg, h]

/-- Witness for C3, at the timestamp `first_timestamp + 2^31` that the spec
singles out. -/
theorem compute_deltas_out_of_order_witness :
    compute_deltas
      { group_length := 5, timestamp_to_ms := 1,
        current_group := some (TimestampGroup.create 5), previous_group := none }
      2147483653 7 9 =
    some ({ group_length := 5, timestamp_to_ms := 1,
            current_group := some (TimestampGroup.create 5), previous_group := none },
          none) :=
  compute_deltas_out_of_order _ _ rfl 2147483653 7 9 (by decide)

/-- C1 (counterexample): at `timestamp_to_ms = 1`, a group with
`last_timestamp = 0` and set arrival time `0`, send timestamp `3` and
arrival time `1`, the source reports a burst (the arrival delta `1` is
smaller than the 3 ms inter-timestamp delta and at most 5 ms), while the
condition stated by the claim (inter-timestamp delta strictly below the
arrival delta) is false. -/
theorem belongs_to_burst_claim_counterexample :
    belongs_to_burst 1
      { arrival_time := some 0, first_timestamp := 0, last_timestamp := 0, size := 0 }
      3 1 = some true ∧
    ¬ (pyRound ((1 : ℚ) * ((uint32_add 3 (-0) : ℤ) : ℚ)) = 0 ∨
       (pyRound ((1 : ℚ) * ((uint32_add 3 (-0) : ℤ) : ℚ)) < (1 : ℤ) - 0 ∧
        (1 : ℤ) - 0 ≤ BURST_DELTA_THRESHOLD_MS)) := by
  have h3 : uint32_add 3 (-0) = 3 := by decide
  have hr : pyRound ((1 : ℚ) * ((uint32_add 3 (-0) : ℤ) : ℚ)) = 3 := by
    rw [h3, one_mul, pyRound_intCast]
  constructor
  · rw [belongs_to_burst_some 1 _ 0 rfl 3 1]
    simp only [hr]
    norm_num [BURST_DELTA_THRESHOLD_MS]
  · rw [hr]
    norm_num

/-- C1 (amended): on a packet that is neither the first nor out-of-order,
`belongs_to_burst(timestamp, arrival_time)` is true if and only if
`round(timestamp_to_ms * ((timestamp - last_timestamp) mod 2^32)) = 0`, or
else the arrival-time delta is strictly BELOW the inter-timestamp delta in
milliseconds (the packet caught up) and the arrival-time delta is at most
5 ms. In that situation the current group exists and its arrival time is
set (claim C9), which is the hypothesis used here. -/
theorem belongs_to_burst_iff (timestamp_to_ms : ℚ) (cg : TimestampGroup) (ca : ℤ)
    (hca : cg.arrival_time = some ca) (timestamp arrival_time : ℤ) :
    belongs_to_burst timestamp_to_ms cg timestamp arrival_time = some true ↔
      (pyRound (timestamp_to_ms * ((uint32_add timestamp (-cg.last_timestamp) : ℤ) : ℚ)) = 0 ∨
       (arrival_time - ca <
          pyRound (timestamp_to_ms * ((uint32_add timestamp (-cg.last_timestamp) : ℤ) : ℚ)) ∧
        arrival_time - ca ≤ BURST_DELTA_THRESHOLD_MS)) := by
  rw [belongs_to_burst_some timestamp_to_ms cg ca hca timestamp arrival_time]
  simp only [Option.some_inj, Bool.or_eq_true, Bool.and_eq_true, decide_eq_true_eq]
  constructor
  · rintro (h | ⟨h1, h2⟩)
    · exact Or.inl h
    · exact Or.inr ⟨by omega, h2⟩
  · rintro (h | ⟨h1, h2⟩)
    · exact Or.inl h
    · exact Or.inr ⟨by omega, h2⟩

/-- Witness for C1 (amended), at the counterexample input: the burst test
returns true and the amended right-hand side holds there. -/
theorem belongs_to_burst_iff_witness :
    belongs_to_burst 1
      { arrival_time := some 0, first_timestamp := 0, last_timestamp := 0, size := 0 }
      3 1 = some true ↔
      (pyRound ((1 : ℚ) * ((uint32_add 3
          (-({ arrival_time := some 0, first_timestamp := 0, last_timestamp := 0,
               size := 0 } : TimestampGroup).last_timestamp) : ℤ) : ℚ)) = 0 ∨
       ((1 : ℤ) - 0 < pyRound ((1 : ℚ) * ((uint32_add 3
          (-({ arrival_time := some 0, first_timestamp := 0, last_timestamp := 0,
               size := 0 } : TimestampGroup).last_timestamp) : ℤ) : ℚ)) ∧
        (1 : ℤ) - 0 ≤ BURST_DELTA_THRESHOLD_MS)) :=
  belongs_to_burst_iff 1 _ 0 rfl 3 1

/-- A single packet emits no delta. -/
theorem emitted_count_single (t1 a1 p1 : ℤ) :
    emitted_count [⟨t1, a1, p1⟩] = some 0 := rfl

/-- Two packets whose send timestamps stay within the 5 ms group length
emit no delta. -/
theorem emitted_count_same_group (t1 a1 p1 t2 a2 p2 : ℤ)
    (hsame : uint32_add t2 (-t1) ≤ 5) :
    emitted_count [⟨t1, a1, p1⟩, ⟨t2, a2, p2⟩] = some 0 := by
  have hnn := uint32_add_nonneg t2 (-t1)
  have h1 : compute_deltas (init_inter_arrival 5 1) t1 a1 p1 =
      some ({ group_length := 5, timestamp_to_ms := 1,
              current_group := some { arrival_time := some a1, first_timestamp := t1,
                                      last_timestamp := t1, size := p1 },
              previous_group := none }, none) := by
    simp [compute_deltas, init_inter_arrival, account, TimestampGroup.create]
  have hoo : packet_out_of_order
      { arrival_time := some a1, first_timestamp := t1, last_timestamp := t1,
        size := p1 } t2 = false := by
    simp only [packet_out_of_order, decide_eq_false_iff_not, not_le]
    exact lt_of_le_of_lt hsame (by norm_num)
  have hng : new_timestamp_group 1 5
      { arrival_time := some a1, first_timestamp := t1, last_timestamp := t1,
        size := p1 } t2 a2 = some false := by
    rw [new_timestamp_group, belongs_to_burst_some 1 _ a1 rfl t2 a2]
    simp only [Option.map_some']
    congr 1
    split_ifs with hb
    · rfl
    · simp only [decide_eq_false_iff_not, not_lt]
      exact hsame
  obtain ⟨s2, h2⟩ : ∃ s2, compute_deltas
      ({ group_length := 5, timestamp_to_ms := 1,
         current_group := some { arrival_time := some a1, first_timestamp := t1,
                                 last_timestamp := t1, size := p1 },
         previous_group := none } : InterArrivalState) t2 a2 p2 = some (s2, none) := by
    by_cases hgt : uint32_gt t2 t1
    · exact ⟨_, by simp [compute_deltas, hoo, hng, hgt]; rfl⟩
    · rw [Bool.not_eq_true] at hgt
      exact ⟨_, by simp [compute_deltas, hoo, hng, hgt]; rfl⟩
  simp [emitted_count, run_deltas, h1, h2]

/-- Three packets whose consecutive send timestamps each advance by 6 ms
(arrival times equal to send times) emit exactly one delta. -/
theorem emitted_count_six_ms_spacing (t q1 q2 q3 : ℤ) :
    emitted_count [⟨t, t, q1⟩, ⟨t + 6, t + 6, q2⟩, ⟨t + 12, t + 12, q3⟩] = some 1 := by
  have e1 : uint32_add (t + 6) (-t) = 6 := by unfold uint32_add; omega
  have e2 : uint32_add (t + 12) (-(t + 6)) = 6 := by unfold uint32_add; omega
  have e2' : uint32_add (t + 12) (-6 + -t) = 6 := by unfold uint32_add; omega
  have hpy1 : pyRound (((uint32_add (t + 6) (-t) : ℤ) : ℚ)) = 6 := by
    rw [e1, pyRound_intCast]
  have hpy2 : pyRound (((uint32_add (t + 12) (-6 + -t) : ℤ) : ℚ)) = 6 := by
    rw [e2', pyRound_intCast]
  have h1 : compute_deltas (init_inter_arrival 5 1) t t q1 =
      some ({ group_length := 5, timestamp_to_ms := 1,
              current_group := some { arrival_time := some t, first_timestamp := t,
                                      last_timestamp := t, size := q1 },
              previous_group := none }, none) := by
    simp [compute_deltas, init_inter_arrival, account, TimestampGroup.create]
  have hoo2 : packet_out_of_order
      { arrival_time := some t, first_timestamp := t, last_timestamp := t, size := q1 }
      (t + 6) = false := by
    simp only [packet_out_of_order, uint32_add, decide_eq_false_iff_not, not_le]
    omega
  have hb2 : belongs_to_burst 1
      { arrival_time := some t, first_timestamp := t, last_timestamp := t, size := q1 }
      (t + 6) (t + 6) = some false := by
    rw [belongs_to_burst_some 1 _ t rfl]
    norm_num [hpy1, BURST_DELTA_THRESHOLD_MS]
  have hng2 : new_timestamp_group 1 5
      { arrival_time := some t, first_timestamp := t, last_timestamp := t, size := q1 }
      (t + 6) (t + 6) = some true := by
    rw [new_timestamp_group, hb2]
    simp [e1]
  have h2 : compute_deltas
      ({ group_length := 5, timestamp_to_ms := 1,
         current_group := some { arrival_time := some t, first_timestamp := t,
                                 last_timestamp := t, size := q1 },
         previous_group := none } : InterArrivalState) (t + 6) (t + 6) q2 =
      some ({ group_length := 5, timestamp_to_ms := 1,
              current_group := some { arrival_time := some (t + 6), first_timestamp := t + 6,
                                      last_timestamp := t + 6, size := q2 },
              previous_group := some { arrival_time := some t, first_timestamp := t,
                                       last_timestamp := t, size := q1 } }, none) := by
    simp [compute_deltas, hoo2, hng2, account, TimestampGroup.create]
  have hoo3 : packet_out_of_order
      { arrival_time := some (t + 6), first_timestamp := t + 6, last_timestamp := t + 6,
        size := q2 } (t + 12) = false := by
    simp only [packet_out_of_order, uint32_add, decide_eq_false_iff_not, not_le]
    omega
  have hb3 : belongs_to_burst 1
      { arrival_time := some (t + 6), first_timestamp := t + 6, last_timestamp := t + 6,
        size := q2 } (t + 12) (t + 12) = some false := by
    rw [belongs_to_burst_some 1 _ (t + 6) rfl]
    norm_num [hpy2, BURST_DELTA_THRESHOLD_MS]
  have hng3 : new_timestamp_group 1 5
      { arrival_time := some (t + 6), first_timestamp := t + 6, last_timestamp := t + 6,
        size := q2 } (t + 12) (t + 12) = some true := by
    rw [new_timestamp_group, hb3]
    simp [e2, e2']
  have h3 : compute_deltas
      ({ group_length := 5, timestamp_to_ms := 1,
         current_group := some { arrival_time := some (t + 6), first_timestamp := t + 6,
                                 last_timestamp := t + 6, size := q2 },
         previous_group := some { arrival_time := some t, first_timestamp := t,
                                  last_timestamp := t, size := q1 } } : InterArrivalState)
      (t + 12) (t + 12) q3 =
      some ({ group_length := 5, timestamp_to_ms := 1,
              current_group := some { arrival_time := some (t + 12),
                                      first_timestamp := t + 12,
                                      last_timestamp := t + 12, size := q3 },
              previous_group := some { arrival_time := some (t + 6),
                                       first_timestamp := t + 6,
                                       last_timestamp := t + 6, size := q2 } },
            some { timestamp := 6, arrival_time := 6, size := q2 - q1 }) := by
    simp [compute_deltas, hoo3, hng3, account, TimestampGroup.create, e1]
  simp [emitted_count, run_deltas, h1, h2, h3]

/-- C2 (counterexample): three packets at send timestamps 0, 1 and 6 ms,
arrival times equal to send times, span exactly 6 ms, yet the run emits
zero deltas rather than one: the first group closes without a predecessor,
so a delta would only appear once a third group starts. -/
theorem emitted_count_span_counterexample :
    emitted_count [⟨0, 0, 1⟩, ⟨1, 1, 1⟩, ⟨6, 6, 1⟩] = some 0 ∧
    emitted_count [⟨0, 0, 1⟩, ⟨1, 1, 1⟩, ⟨6, 6, 1⟩] ≠ some 1 := by
  have h : emitted_count [⟨0, 0, 1⟩, ⟨1, 1, 1⟩, ⟨6, 6, 1⟩] = some 0 := by
    norm_num [emitted_count, run_deltas, compute_deltas, packet_out_of_order,
      new_timestamp_group, belongs_to_burst, account, uint32_add, uint32_gt,
      init_inter_arrival, TimestampGroup.create, BURST_DELTA_THRESHOLD_MS, pyRound]
  exact ⟨h, by rw [h]; simp⟩

/-- C2 (amended): a single packet emits no delta; two packets whose send
timestamps stay in the same 5 ms timestamp group emit no delta; and three
packets whose consecutive send timestamps each advance by 6 ms (arrival
times equal to send times in ms) emit exactly one delta over the three
calls. (Three packets merely spanning 6 ms in total emit none: the first
delta needs a third group to open.) -/
theorem inter_arrival_few_packet_deltas
    (t1 a1 p1 t2 a2 p2 : ℤ) (hsame : uint32_add t2 (-t1) ≤ 5)
    (t q1 q2 q3 : ℤ) :
    emitted_count [⟨t1, a1, p1⟩] = some 0 ∧
    emitted_count [⟨t1, a1, p1⟩, ⟨t2, a2, p2⟩] = some 0 ∧
    emitted_count [⟨t, t, q1⟩, ⟨t + 6, t + 6, q2⟩, ⟨t + 12, t + 12, q3⟩] = some 1 :=
  ⟨emitted_count_single t1 a1 p1,
   emitted_count_same_group t1 a1 p1 t2 a2 p2 hsame,
   emitted_count_six_ms_spacing t q1 q2 q3⟩

/-- Witness for C2 (amended) at concrete packets. -/
theorem inter_arrival_few_packet_deltas_witness :
    emitted_count [⟨100, 7, 1⟩] = some 0 ∧
    emitted_count [⟨100, 7, 1⟩, ⟨103, 9, 2⟩] = some 0 ∧
    emitted_count [⟨(50 : ℤ), 50, 3⟩, ⟨50 + 6, 50 + 6, 4⟩, ⟨50 + 12, 50 + 12, 5⟩] = some 1 :=
  inter_arrival_few_packet_deltas 100 7 1 103 9 2 (by decide) 50 3 4 5

/-! ## Claim theorems for the overuse detector -/

/-- C5: `update_threshold` leaves the threshold unchanged both on its first
call (unset `last_update_ms`, with the threshold inside its clamp range
[6, 600], which holds in every reachable state) and whenever
`|modified_offset| > threshold + 15`; in both cases the only change is
`last_update_ms := now_ms`. -/
theorem update_threshold_no_adapt (s : DetectorState) (modified_offset now_ms : ℚ)
    (h : (s.last_update_ms = none ∧ 6 ≤ s.threshold ∧ s.threshold ≤ 600) ∨
         s.threshold + MAX_ADAPT_OFFSET_MS < |modified_offset|) :
    update_threshold s modified_offset now_ms = { s with last_update_ms := some now_ms } := by
  rcases h with ⟨hn, h6, h600⟩ | hbig
  · unfold update_threshold
    rw [hn]
    by_cases hb : |modified_offset| > s.threshold + MAX_ADAPT_OFFSET_MS
    · rw [if_pos hb]
    · rw [if_neg hb]
      simp only [Option.getD_none, sub_self]
      rw [min_eq_left (by norm_num : (0:ℚ) ≤ 100), mul_zero,
        add_zero, min_eq_left h600, max_eq_right h6]
  · unfold update_threshold
    rw [if_pos hbig]

/-- Witness for C5: the first call on a fresh detector only stamps
`last_update_ms`. -/
theorem update_threshold_no_adapt_witness :
    update_threshold init_detector 0 7 = { init_detector with last_update_ms := some 7 } :=
  update_threshold_no_adapt init_detector 0 7
    (Or.inl ⟨rfl, by norm_num [init_detector], by norm_num [init_detector]⟩)

/-- The threshold bound preserved by every detector step. -/
def threshold_in_range (s : DetectorState) : Prop :=
  6 ≤ s.threshold ∧ s.threshold ≤ 600

theorem update_threshold_range (s : DetectorState) (mo now : ℚ)
    (h : threshold_in_range s) : threshold_in_range (update_threshold s mo now) := by
  unfold update_threshold
  split_ifs
  · exact h
  all_goals
    exact ⟨le_max_left _ _, max_le (by norm_num) (min_le_right _ _)⟩

theorem detect_range (s : DetectorState) (offset timestamp_delta_ms : ℚ)
    (num_of_deltas : ℤ) (now_ms : ℚ) (h : threshold_in_range s) :
    threshold_in_range (detect s offset timestamp_delta_ms num_of_deltas now_ms).1 := by
  unfold detect
  split_ifs
  all_goals first
    | exact h
    | (apply update_threshold_range
       constructor
       · dsimp only
         split_ifs <;> exact h.1
       · dsimp only
         split_ifs <;> exact h.2)

/-- C6: starting from the fresh detector (threshold 12.5), the threshold
lies in [6, 600] after every sequence of `detect` calls, for all
arguments. -/
theorem detector_threshold_bounded (l : List DetectArgs) :
    6 ≤ (run_detect l).threshold ∧ (run_detect l).threshold ≤ 600 := by
  have main : ∀ (l : List DetectArgs) (s : DetectorState), threshold_in_range s →
      threshold_in_range (l.foldl (fun s a =>
        (detect s a.offset a.timestamp_delta_ms a.num_of_deltas a.now_ms).1) s) := by
    intro l
    induction l with
    | nil => exact fun s hs => hs
    | cons a l ih =>
        intro s hs
        exact ih _ (detect_range _ _ _ _ _ hs)
  exact main l init_detector ⟨by norm_num [init_detector], by norm_num [init_detector]⟩

/-! ## Claim theorem for the rate counter -/

/-- C8: `rate(now_ms)` returns `round(scale * total.value / active_window_ms)`
with `active_window_ms = now_ms - origin_ms + 1` exactly when the counter has
been started and, after `erase_old(now_ms)`, the total count is positive and
the active window exceeds one millisecond; in every other case it returns
none. This is the equality of the source `rate` with `rate_spec`, the
function written from the words of the claim. -/
theorem rate_eq_rate_spec (s : RateCounterState) (now_ms : ℤ) :
    rate s now_ms = rate_spec s now_ms := by
  unfold rate rate_spec
  match ho : s.origin_ms with
  | none => simp [erase_old, ho]
  | some o => simp [ho]

/-! ## Helper lemmas for the overuse estimator -/

/-- Nonnegativity of the quadratic form of a positive semi-definite
symmetric 2x2 matrix given by the determinant test. -/
theorem quadform_nonneg (a b c x y : ℝ) (ha : 0 ≤ a) (hc : 0 ≤ c)
    (hb : b ^ 2 ≤ a * c) : 0 ≤ a * x ^ 2 + 2 * b * (x * y) + c * y ^ 2 := by
  rcases eq_or_lt_of_le ha with h0 | hpos
  · have hb0 : b = 0 := by nlinarith [sq_nonneg b]
    rw [← h0, hb0]
    nlinarith [mul_nonneg hc (sq_nonneg y)]
  · nlinarith [sq_nonneg (a * x + b * y), mul_nonneg (sub_nonneg.2 hb) (sq_nonneg y)]

/-- The floored noise variance is at least one after every noise update. -/
theorem update_noise_estimate_ge_one (num_of_deltas : ℤ) (avg_noise var_noise residual ts_delta : ℝ) :
    1 ≤ (update_noise_estimate num_of_deltas avg_noise var_noise residual ts_delta).2 := by
  unfold update_noise_estimate
  dsimp only
  split_ifs with h1 h2 h3
  · exact le_refl 1
  · exact not_lt.mp h2
  · exact le_refl 1
  · exact not_lt.mp h3

/-- The noise pair computed inside `update` has second component at least
one whenever the entering variance is. -/
theorem noise_branch_ge_one (cond : Prop) [Decidable cond] (num_of_deltas : ℤ)
    (avg_noise var_noise residual ts_delta : ℝ) (hvar : 1 ≤ var_noise) :
    1 ≤ (if cond then update_noise_estimate num_of_deltas avg_noise var_noise residual ts_delta
         else (avg_noise, var_noise)).2 := by
  split_ifs with hcond
  · exact update_noise_estimate_ge_one num_of_deltas avg_noise var_noise residual ts_delta
  · exact hvar

/-- Core algebra of the covariance update `E := (I - K h^T) E` with
`K = E h / (v + h^T E h)`: for a symmetric positive semi-definite `E` and
`v >= 1`, the new matrix is symmetric and positive semi-definite. The
expressions mirror lines 214 to 244 of the source with `h = [g, 1]`. -/
theorem kalman_core (a b c g V Eh0 Eh1 D : ℝ)
    (ha : 0 ≤ a) (hc : 0 ≤ c) (hb : b ^ 2 ≤ a * c) (hV : 1 ≤ V)
    (hEh0 : Eh0 = a * g + b * 1) (hEh1 : Eh1 = b * g + c * 1)
    (hD : D = V + g * Eh0 + 1 * Eh1) :
    (b * (1 - Eh0 / D * g) + c * (-(Eh0 / D * 1)) =
       a * (-(Eh1 / D * g)) + b * (1 - Eh1 / D * 1)) ∧
    0 ≤ a * (1 - Eh0 / D * g) + b * (-(Eh0 / D * 1)) ∧
    0 ≤ b * (-(Eh1 / D * g)) + c * (1 - Eh1 / D * 1) ∧
    (b * (1 - Eh0 / D * g) + c * (-(Eh0 / D * 1))) ^ 2 ≤
      (a * (1 - Eh0 / D * g) + b * (-(Eh0 / D * 1))) *
      (b * (-(Eh1 / D * g)) + c * (1 - Eh1 / D * 1)) := by
  have hV0 : (0 : ℝ) ≤ V := le_trans zero_le_one hV
  have hq : 0 ≤ g * Eh0 + 1 * Eh1 := by
    rw [hEh0, hEh1]
    have h2 := quadform_nonneg a b c g 1 ha hc hb
    nlinarith [h2]
  have hDpos : (0 : ℝ) < D := by rw [hD]; linarith
  have hD0 : D ≠ 0 := ne_of_gt hDpos
  have e3 : a * (1 - Eh0 / D * g) + b * (-(Eh0 / D * 1)) = (a * D - Eh0 ^ 2) / D := by
    field_simp
    rw [hEh0]
    ring
  have e4 : b * (-(Eh1 / D * g)) + c * (1 - Eh1 / D * 1) = (c * D - Eh1 ^ 2) / D := by
    field_simp
    rw [hEh1]
    ring
  have e5 : b * (1 - Eh0 / D * g) + c * (-(Eh0 / D * 1)) = (b * D - Eh0 * Eh1) / D := by
    field_simp
    rw [hEh0, hEh1]
    ring
  have e5' : a * (-(Eh1 / D * g)) + b * (1 - Eh1 / D * 1) = (b * D - Eh0 * Eh1) / D := by
    field_simp
    rw [hEh0, hEh1]
    ring
  have h3 : 0 ≤ a * D - Eh0 ^ 2 := by
    rw [hD, hEh0, hEh1]
    nlinarith [mul_nonneg ha hV0]
  have h4 : 0 ≤ c * D - Eh1 ^ 2 := by
    rw [hD, hEh0, hEh1]
    nlinarith [mul_nonneg hc hV0, mul_nonneg (sub_nonneg.2 hb) (sq_nonneg g)]
  have key : (a * D - Eh0 ^ 2) * (c * D - Eh1 ^ 2) - (b * D - Eh0 * Eh1) ^ 2 =
      D * V * (a * c - b ^ 2) := by
    rw [hD, hEh0, hEh1]
    ring
  have fact : 0 ≤ D * V * (a * c - b ^ 2) :=
    mul_nonneg (mul_nonneg hDpos.le hV0) (sub_nonneg.2 hb)
  have main : (b * D - Eh0 * Eh1) ^ 2 ≤ (a * D - Eh0 ^ 2) * (c * D - Eh1 ^ 2) := by
    linarith [key, fact]
  refine ⟨?_, ?_, ?_, ?_⟩
  · rw [e5, e5']
  · rw [e3]
    exact div_nonneg h3 hDpos.le
  · rw [e4]
    exact div_nonneg h4 hDpos.le
  · calc (b * (1 - Eh0 / D * g) + c * (-(Eh0 / D * 1))) ^ 2
        = (b * D - Eh0 * Eh1) ^ 2 / D ^ 2 := by rw [e5, div_pow]
      _ ≤ ((a * D - Eh0 ^ 2) * (c * D - Eh1 ^ 2)) / D ^ 2 := by
          rw [div_le_div_iff (by positivity) (by positivity)]
          nlinarith [main, sq_nonneg D]
      _ = (a * (1 - Eh0 / D * g) + b * (-(Eh0 / D * 1))) *
          (b * (-(Eh1 / D * g)) + c * (1 - Eh1 / D * 1)) := by
          rw [e3, e4, div_mul_div_comm, ← pow_two]

/-- The estimator invariant: noise variance at least one, covariance
symmetric and positive semi-definite (determinant test), process noise
nonnegative. -/
def EstInv (s : EstimatorState) : Prop :=
  1 ≤ s.var_noise ∧ s.E01 = s.E10 ∧ 0 ≤ s.E00 ∧ 0 ≤ s.E11 ∧
  s.E01 ^ 2 ≤ s.E00 * s.E11 ∧ 0 ≤ s.process_noise0 ∧ 0 ≤ s.process_noise1

theorem estInv_update (s : EstimatorState) (h : EstInv s)
    (time_delta_ms timestamp_delta_ms size_delta : ℝ) (hyp : BandwidthUsage)
    (now_ms : ℝ) :
    EstInv (update s time_delta_ms timestamp_delta_ms size_delta hyp now_ms) := by
  obtain ⟨hv, hsym, h00, h11, hdet, hpn0, hpn1⟩ := h
  dsimp only [update]
  rw [← hsym]
  refine ⟨?_, ?_, ?_, ?_, ?_, ?_, ?_⟩
  · dsimp only
    exact noise_branch_ge_one _ _ _ _ _ _ hv
  · dsimp only
    refine (kalman_core _ _ _ _ _ _ _ _ ?_ ?_ ?_ ?_ rfl rfl rfl).1
    · exact add_nonneg h00 hpn0
    · split_ifs <;> linarith
    · split_ifs <;>
        nlinarith [hdet, mul_nonneg h00 hpn1, mul_nonneg hpn0 h11, mul_nonneg hpn0 hpn1]
    · exact noise_branch_ge_one _ _ _ _ _ _ hv
  · dsimp only
    refine (kalman_core _ _ _ _ _ _ _ _ ?_ ?_ ?_ ?_ rfl rfl rfl).2.1
    · exact add_nonneg h00 hpn0
    · split_ifs <;> linarith
    · split_ifs <;>
        nlinarith [hdet, mul_nonneg h00 hpn1, mul_nonneg hpn0 h11, mul_nonneg hpn0 hpn1]
    · exact noise_branch_ge_one _ _ _ _ _ _ hv
  · dsimp only
    refine (kalman_core _ _ _ _ _ _ _ _ ?_ ?_ ?_ ?_ rfl rfl rfl).2.2.1
    · exact add_nonneg h00 hpn0
    · split_ifs <;> linarith
    · split_ifs <;>
        nlinarith [hdet, mul_nonneg h00 hpn1, mul_nonneg hpn0 h11, mul_nonneg hpn0 hpn1]
    · exact noise_branch_ge_one _ _ _ _ _ _ hv
  · dsimp only
    refine (kalman_core _ _ _ _ _ _ _ _ ?_ ?_ ?_ ?_ rfl rfl rfl).2.2.2
    · exact add_nonneg h00 hpn0
    · split_ifs <;> linarith
    · split_ifs <;>
        nlinarith [hdet, mul_nonneg h00 hpn1, mul_nonneg hpn0 h11, mul_nonneg hpn0 hpn1]
    · exact noise_branch_ge_one _ _ _ _ _ _ hv
  · exact hpn0
  · exact hpn1

theorem run_estimator_inv (l : List UpdateArgs) : EstInv (run_estimator l) := by
  have main : ∀ (l : List UpdateArgs) (s : EstimatorState), EstInv s →
      EstInv (l.foldl (fun s a =>
        update s a.time_delta_ms a.timestamp_delta_ms a.size_delta a.current_hypothesis
          a.now_ms) s) := by
    intro l
    induction l with
    | nil => exact fun s hs => hs
    | cons a l ih =>
        intro s hs
        exact ih _ (estInv_update s hs _ _ _ _ _)
  refine main l init_estimator ⟨?_, ?_, ?_, ?_, ?_, ?_, ?_⟩ <;>
    norm_num [init_estimator]

/-! ## Claim theorems for the overuse estimator -/

/-- C7: starting from the fresh estimator (`var_noise = 50`), the noise
variance is at least one after every sequence of `update` calls, for all
arguments and hypotheses. -/
theorem estimator_var_noise_ge_one (l : List UpdateArgs) :
    1 ≤ (run_estimator l).var_noise :=
  (run_estimator_inv l).1

/-- C4: in exact real arithmetic the covariance matrix stays symmetric and
positive semi-definite after every sequence of `update` calls starting from
the initial `E = [[100, 0], [0, 0.1]]`: its off-diagonal entries agree and
its quadratic form is nonnegative on every vector `(x, y)`. -/
theorem estimator_covariance_symmetric_psd (l : List UpdateArgs) (x y : ℝ) :
    (run_estimator l).E01 = (run_estimator l).E10 ∧
    0 ≤ (run_estimator l).E00 * x ^ 2 +
        ((run_estimator l).E01 + (run_estimator l).E10) * (x * y) +
        (run_estimator l).E11 * y ^ 2 := by
  obtain ⟨-, hsym, h00, h11, hdet, -, -⟩ := run_estimator_inv l
  refine ⟨hsym, ?_⟩
  have hq := quadform_nonneg (run_estimator l).E00 (run_estimator l).E01
    (run_estimator l).E11 x y h00 h11 hdet
  rw [← hsym]
  nlinarith [hq]

/-- C10: at every reachable estimator state, for every next call, the Kalman
gain denominator `var_noise + h[0]*Eh[0] + h[1]*Eh[1]` computed at line 230
is at least one, so the divisions computing `K[0]` and `K[1]` never divide
by zero. -/
theorem estimator_denominator_ge_one (l : List UpdateArgs) (a : UpdateArgs) :
    1 ≤ update_denom (run_estimator l) a.time_delta_ms a.timestamp_delta_ms
        a.size_delta a.current_hypothesis := by
  obtain ⟨hv, hsym, h00, h11, hdet, hpn0, hpn1⟩ := run_estimator_inv l
  dsimp only [update_denom]
  rw [← hsym]
  have ha : 0 ≤ (run_estimator l).E00 + (run_estimator l).process_noise0 :=
    add_nonneg h00 hpn0
  have hc : 0 ≤ (if (a.current_hypothesis = BandwidthUsage.OVERUSING ∧
        (run_estimator l).offset < (run_estimator l).previous_offset) ∨
        (a.current_hypothesis = BandwidthUsage.UNDERUSING ∧
        (run_estimator l).previous_offset < (run_estimator l).offset) then
      (run_estimator l).E11 + (run_estimator l).process_noise1 +
        10 * (run_estimator l).process_noise1
    else (run_estimator l).E11 + (run_estimator l).process_noise1) := by
    split_ifs <;> linarith
  have hb : (run_estimator l).E01 ^ 2 ≤
      ((run_estimator l).E00 + (run_estimator l).process_noise0) *
      (if (a.current_hypothesis = BandwidthUsage.OVERUSING ∧
        (run_estimator l).offset < (run_estimator l).previous_offset) ∨
        (a.current_hypothesis = BandwidthUsage.UNDERUSING ∧
        (run_estimator l).previous_offset < (run_estimator l).offset) then
      (run_estimator l).E11 + (run_estimator l).process_noise1 +
        10 * (run_estimator l).process_noise1
    else (run_estimator l).E11 + (run_estimator l).process_noise1) := by
    split_ifs <;>
      nlinarith [hdet, mul_nonneg h00 hpn1, mul_nonneg hpn0 h11, mul_nonneg hpn0 hpn1]
  have hq := quadform_nonneg _ _ _ a.size_delta 1 ha hc hb
  have step : ∀ V x y : ℝ, 1 ≤ V → 0 ≤ x + y → 1 ≤ V + x + y := by
    intro V x y h1 h2
    linarith
  apply step
  · exact noise_branch_ge_one _ _ _ _ _ _ hv
  · nlinarith [hq]
